import Mathlib

/-!
Verification development for the GLIF experiment harness
(`allen_wrench/model/GLIF/experiment.py`).

The harness is embedded shallowly:

* a neuron's named numeric attributes become an association list from
  attribute names to `AttrValue` (a scalar or a vector), mirroring the
  Python object's `__dict__` together with `getattr`/`setattr`;
* the two external simulation entry points of the neuron model
  (`neuron.run_wrt_target_spike_train`, `neuron.run`) are opaque pure
  functions stored in the `NeuronModel` record; their per-channel
  payloads (traces, matrices, spike arrays) are opaque to the harness
  and are modelled as integer tokens;
* Python exceptions become the `Except PyErr` monad: the allow-list
  check of `set_neuron_parameters` raises `configError`, out-of-range
  scalar indexing raises `indexError`, and a missing attribute raises
  `attributeError`;
* Python slice semantics (`param_guess[a:b]`, which silently truncates
  past the end) are `pySlice`.
-/

/-- A named model attribute is either a single numeric value or an
ordered sequence of numeric values (the Python code distinguishes the
two by `hasattr(a, "__len__")`). -/
inductive AttrValue where
  | scalar : Int → AttrValue
  | vector : List Int → AttrValue
  deriving DecidableEq

/-- The attribute store of the neuron object: an association list from
attribute names to values, mirroring the object's `__dict__`. -/
abbrev AttrMap := List (String × AttrValue)

/-- Python `getattr(obj, name)`: the value bound to `name`, or `none`
when the attribute is missing (an `AttributeError` in Python). -/
def getattrOpt : AttrMap → String → Option AttrValue
  | [], _ => none
  | (k, w) :: rest, name => if k = name then some w else getattrOpt rest name

/-- Python `setattr(obj, name, v)`: rebind `name` in place, appending a
fresh binding if the attribute did not exist. -/
def setattr : AttrMap → String → AttrValue → AttrMap
  | [], name, v => [(name, v)]
  | (k, w) :: rest, name, v =>
    if k = name then (name, v) :: rest else (k, w) :: setattr rest name v

/-- The Python exceptions the harness can raise. -/
inductive PyErr where
  | configError
  | indexError
  | attributeError
  deriving DecidableEq

/-- `GLIFExperiment.FIT_PARAMETERS` (experiment.py line 9): the fixed
allow-list of fittable attribute names. -/
def FIT_PARAMETERS : List String :=
  ["coeff_th", "coeff_C", "coeff_G", "coeff_a", "coeff_b", "coeff_a_vector"]

/-- Python slice `l[a:b]` for `0 ≤ a ≤ b`: silently truncates when the
bounds run past the end of the list. -/
def pySlice (l : List Int) (a b : Nat) : List Int := (l.drop a).take (b - a)

/-- Result record of one call to `neuron.run_wrt_target_spike_train`
(the eleven components unpacked at experiment.py lines 73-75).  Each
channel's payload is opaque to the harness and modelled as a token. -/
structure SimTargetOut where
  voltage : Int
  threshold : Int
  AScurrentMatrix : Int
  gridTime : Int
  interpolatedTime : Int
  gridISIFromLastTargSpike : Int
  interpolatedISIFromLastTargSpike : Int
  voltageOfModelAtGridBioSpike : Int
  theshOfModelAtGridBioSpike : Int
  voltageOfModelAtInterpolatedTargSpike : Int
  thresholdOfModelAtInterpolatedTargSpike : Int
  deriving DecidableEq, Inhabited

/-- Result record of one call to `neuron.run` (the eight components
unpacked at experiment.py lines 131-132). -/
structure SimFreeOut where
  voltage : Int
  threshold : Int
  AScurrentMatrix : Int
  gridSpikeTime : Int
  interpolatedSpikeTime : Int
  gridSpikeIndex : Int
  interpolatedSpikeVoltage : Int
  interpolatedSpikeThreshold : Int
  deriving DecidableEq, Inhabited

/-- The eleven parallel per-sweep output lists returned by `run`
(experiment.py line 93), one entry per sweep in each. -/
structure RunResult where
  voltage_list : List Int
  threshold_list : List Int
  AScurrentMatrix_list : List Int
  gridTime_list : List Int
  interpolatedTime_list : List Int
  gridISIFromLastTargSpike_list : List Int
  interpolatedISIFromLastTargSpike_list : List Int
  voltageOfModelAtGridBioSpike_list : List Int
  theshOfModelAtGridBioSpike_list : List Int
  voltageOfModelAtInterpolatedBioSpike_list : List Int
  thresholdOfModelAtInterpolatedBioSpike_list : List Int
  deriving DecidableEq

/-- The eight parallel per-sweep output lists returned by
`run_base_model` (experiment.py lines 145-146). -/
structure BaseRunResult where
  voltage_list : List Int
  threshold_list : List Int
  AScurrentMatrix_list : List Int
  gridSpikeTime_list : List Int
  interpolatedSpikeTime_list : List Int
  gridSpikeIndex_list : List Int
  interpolatedSpikeVoltage_list : List Int
  interpolatedSpikeThreshold_list : List Int
  deriving DecidableEq

/-- The external neuron model: its mutable attribute store plus its two
simulation entry points.  Both entry points are deterministic pure
functions of the current attribute values and their explicit
arguments (in the source their argument order is: initial voltage,
initial threshold, initial AS-currents, stimulus, and - for the
target-driven mode - target grid spike indices, eligibility mask, and
interpolated target spike times). -/
structure NeuronModel where
  attrs : AttrMap
  dt : Int
  run_wrt_target_spike_train :
    AttrMap → Int → Int → Int → Int → Int → Int → Int → SimTargetOut
  run : AttrMap → Int → Int → Int → Int → SimFreeOut

/-- The `GLIFExperiment` object (experiment.py lines 13-28): the model
handle, the fixed per-sweep dataset, the initial state triple, and the
fit specification. -/
structure GLIFExperiment where
  neuron : NeuronModel
  dt : Int
  stim_list : List Int
  grid_spike_index_target_list : List Int
  grid_spike_time_target_list : List Int
  interpolated_spike_time_target_list : List Int
  init_voltage : Int
  init_threshold : Int
  init_AScurrents : Int
  target_spike_mask : List Int
  fit_names_list : List String

/-- The cursor loop of `set_neuron_parameters` (experiment.py lines
156-167): walk `fit_names_list` left to right keeping a running index
into `param_guess`; a vector-valued attribute of current length `k`
receives the slice `param_guess[index : index + k]` and advances the
index by `k`, a scalar attribute receives `param_guess[index]` (which
raises `IndexError` when out of range) and advances the index by 1.
Returns the updated attribute store and the final cursor. -/
def setParamsGo (attrs : AttrMap) (names : List String) (index : Nat)
    (param_guess : List Int) : Except PyErr (AttrMap × Nat) :=
  match names with
  | [] => .ok (attrs, index)
  | name :: rest =>
    match getattrOpt attrs name with
    | none => .error .attributeError
    | some (.vector a) =>
      setParamsGo (setattr attrs name (.vector (pySlice param_guess index (index + a.length))))
        rest (index + a.length) param_guess
    | some (.scalar _) =>
      match param_guess[index]? with
      | some x => setParamsGo (setattr attrs name (.scalar x)) rest (index + 1) param_guess
      | none => .error .indexError

/-- `GLIFExperiment.set_neuron_parameters` (experiment.py lines
148-167): first the allow-list check over the whole of
`fit_names_list` (lines 153-154, raising before any assignment), then
the cursor loop. -/
def GLIFExperiment.set_neuron_parameters (e : GLIFExperiment) (param_guess : List Int) :
    Except PyErr GLIFExperiment :=
  if e.fit_names_list.any (fun param => decide (param ∉ FIT_PARAMETERS)) then
    .error .configError
  else
    match setParamsGo e.neuron.attrs e.fit_names_list 0 param_guess with
    | .error err => .error err
    | .ok (attrs2, _) => .ok { e with neuron := { e.neuron with attrs := attrs2 } }

/-- Error-propagating map: the sequential per-sweep loop body, which
stops at the first raised exception. -/
def mapExcept (f : α → Except ε β) : List α → Except ε (List β)
  | [] => .ok []
  | x :: xs =>
    match f x with
    | .error err => .error err
    | .ok y =>
      match mapExcept f xs with
      | .error err => .error err
      | .ok ys => .ok (y :: ys)

/-- One iteration of the sweep loop of `run` (experiment.py lines
72-78): index the stimulus and the three per-sweep target arrays at
the sweep index (an out-of-range index raises `IndexError`) and invoke
`neuron.run_wrt_target_spike_train` with the stored initial triple. -/
def GLIFExperiment.runSweep (e : GLIFExperiment) (i : Nat) : Except PyErr SimTargetOut :=
  match e.stim_list[i]?, e.grid_spike_index_target_list[i]?,
      e.target_spike_mask[i]?, e.interpolated_spike_time_target_list[i]? with
  | some stim, some gsi, some mask, some ist =>
    .ok (e.neuron.run_wrt_target_spike_train e.neuron.attrs
      e.init_voltage e.init_threshold e.init_AScurrents stim gsi mask ist)
  | _, _, _, _ => .error .indexError

/-- Stack the per-sweep outputs of `run` into the eleven parallel
output lists appended at experiment.py lines 80-91 and returned at
line 93, in source order. -/
def mkRunResult (outs : List SimTargetOut) : RunResult :=
  { voltage_list := outs.map SimTargetOut.voltage
    threshold_list := outs.map SimTargetOut.threshold
    AScurrentMatrix_list := outs.map SimTargetOut.AScurrentMatrix
    gridTime_list := outs.map SimTargetOut.gridTime
    interpolatedTime_list := outs.map SimTargetOut.interpolatedTime
    gridISIFromLastTargSpike_list := outs.map SimTargetOut.gridISIFromLastTargSpike
    interpolatedISIFromLastTargSpike_list := outs.map SimTargetOut.interpolatedISIFromLastTargSpike
    voltageOfModelAtGridBioSpike_list := outs.map SimTargetOut.voltageOfModelAtGridBioSpike
    theshOfModelAtGridBioSpike_list := outs.map SimTargetOut.theshOfModelAtGridBioSpike
    voltageOfModelAtInterpolatedBioSpike_list :=
      outs.map SimTargetOut.voltageOfModelAtInterpolatedTargSpike
    thresholdOfModelAtInterpolatedBioSpike_list :=
      outs.map SimTargetOut.thresholdOfModelAtInterpolatedTargSpike }

/-- `GLIFExperiment.run` (experiment.py lines 30-93): parameter mapping
first, then one simulator invocation per sweep in sweep order, then
the eleven stacked result lists.  The updated experiment (the in-place
attribute mutation of the Python code) is returned alongside. -/
def GLIFExperiment.run (e : GLIFExperiment) (param_guess : List Int) :
    Except PyErr (GLIFExperiment × RunResult) :=
  match e.set_neuron_parameters param_guess with
  | .error err => .error err
  | .ok e1 =>
    match mapExcept e1.runSweep (List.range e.stim_list.length) with
    | .error err => .error err
    | .ok outs => .ok (e1, mkRunResult outs)

/-- One iteration of the sweep loop of `run_base_model` (experiment.py
lines 130-133): only the stimulus is indexed and `neuron.run` is
invoked with the stored initial triple. -/
def GLIFExperiment.runSweepBase (e : GLIFExperiment) (i : Nat) : Except PyErr SimFreeOut :=
  match e.stim_list[i]? with
  | some stim =>
    .ok (e.neuron.run e.neuron.attrs e.init_voltage e.init_threshold e.init_AScurrents stim)
  | none => .error .indexError

/-- Stack the per-sweep outputs of `run_base_model` into the eight
parallel output lists appended at experiment.py lines 135-142.  Note
line 142 of the source: the interpolated-spike-threshold list is
appended from `interpolatedSpikeVoltage`, not from
`interpolatedSpikeThreshold`. -/
def mkBaseRunResult (outs : List SimFreeOut) : BaseRunResult :=
  { voltage_list := outs.map SimFreeOut.voltage
    threshold_list := outs.map SimFreeOut.threshold
    AScurrentMatrix_list := outs.map SimFreeOut.AScurrentMatrix
    gridSpikeTime_list := outs.map SimFreeOut.gridSpikeTime
    interpolatedSpikeTime_list := outs.map SimFreeOut.interpolatedSpikeTime
    gridSpikeIndex_list := outs.map SimFreeOut.gridSpikeIndex
    interpolatedSpikeVoltage_list := outs.map SimFreeOut.interpolatedSpikeVoltage
    interpolatedSpikeThreshold_list := outs.map SimFreeOut.interpolatedSpikeVoltage }

/-- `GLIFExperiment.run_base_model` (experiment.py lines 95-146). -/
def GLIFExperiment.run_base_model (e : GLIFExperiment) (param_guess : List Int) :
    Except PyErr (GLIFExperiment × BaseRunResult) :=
  match e.set_neuron_parameters param_guess with
  | .error err => .error err
  | .ok e1 =>
    match mapExcept e1.runSweepBase (List.range e.stim_list.length) with
    | .error err => .error err
    | .ok outs => .ok (e1, mkBaseRunResult outs)

/-! ## Basic lemmas about the attribute store -/

/-- Looking up the attribute just written returns the written value. -/
theorem getattrOpt_setattr_self (m : AttrMap) (k : String) (v : AttrValue) :
    getattrOpt (setattr m k v) k = some v := by
  induction m with
  | nil => simp [setattr, getattrOpt]
  | cons p rest ih =>
    obtain ⟨a, w⟩ := p
    by_cases h : a = k
    · simp [setattr, h, getattrOpt]
    · simp [setattr, h, getattrOpt, ih]

/-- Writing one attribute leaves every other attribute unchanged. -/
theorem getattrOpt_setattr_ne (m : AttrMap) (k k' : String) (v : AttrValue)
    (h : k' ≠ k) : getattrOpt (setattr m k v) k' = getattrOpt m k' := by
  induction m with
  | nil => simp [setattr, getattrOpt, h, Ne.symm h]
  | cons p rest ih =>
    obtain ⟨a, w⟩ := p
    by_cases ha : a = k
    · subst ha
      simp [setattr, getattrOpt, h, Ne.symm h]
    · by_cases ha' : a = k'
      · simp [setattr, ha, getattrOpt, ha', h]
      · simp [setattr, ha, getattrOpt, ha', ih]

/-- Rewriting an attribute with the value it already holds is the
identity on the store. -/
theorem setattr_eq_self (m : AttrMap) (k : String) (v : AttrValue)
    (h : getattrOpt m k = some v) : setattr m k v = m := by
  induction m with
  | nil => simp [getattrOpt] at h
  | cons p rest ih =>
    obtain ⟨a, w⟩ := p
    by_cases ha : a = k
    · subst ha
      simp [getattrOpt] at h
      simp [setattr, h]
    · simp [getattrOpt, ha] at h
      simp [setattr, ha, ih h]

/-! ## Inversion and frame lemmas for the parameter-mapping loop -/

/-- The cursor loop touches only the attributes named in the list it
processes: every other attribute keeps its value. -/
theorem setParamsGo_frame (names : List String) (attrs : AttrMap) (idx : Nat)
    (pg : List Int) (attrs2 : AttrMap) (idx2 : Nat)
    (h : setParamsGo attrs names idx pg = .ok (attrs2, idx2)) :
    ∀ k, k ∉ names → getattrOpt attrs2 k = getattrOpt attrs k := by
  induction names generalizing attrs idx with
  | nil =>
    intro k _
    simp only [setParamsGo, Except.ok.injEq, Prod.mk.injEq] at h
    rw [h.1]
  | cons n rest ih =>
    intro k hk
    have hkn : k ≠ n := fun hc => hk (hc ▸ List.mem_cons_self n rest)
    have hkrest : k ∉ rest := fun hc => hk (List.mem_cons_of_mem n hc)
    rw [setParamsGo] at h
    cases hg : getattrOpt attrs n with
    | none => rw [hg] at h; cases h
    | some v =>
      rw [hg] at h
      cases v with
      | vector a =>
        have := ih _ _ h k hkrest
        rw [this, getattrOpt_setattr_ne _ _ _ _ hkn]
      | scalar y =>
        cases hp : pg[idx]? with
        | none => rw [hp] at h; cases h
        | some x =>
          rw [hp] at h
          have := ih _ _ h k hkrest
          rw [this, getattrOpt_setattr_ne _ _ _ _ hkn]

/-- Successful parameter mapping decomposes into a successful cursor
loop whose result replaces the attribute store, every other field of
the experiment being kept. -/
theorem set_neuron_parameters_ok_inv (e : GLIFExperiment) (pg : List Int)
    (e1 : GLIFExperiment) (h : e.set_neuron_parameters pg = .ok e1) :
    ∃ attrs2 idx2, setParamsGo e.neuron.attrs e.fit_names_list 0 pg = .ok (attrs2, idx2) ∧
      e1 = { e with neuron := { e.neuron with attrs := attrs2 } } := by
  rw [GLIFExperiment.set_neuron_parameters] at h
  split at h
  · cases h
  · split at h
    · cases h
    · rename_i attrs2 idx2 heq
      injection h with h1
      exact ⟨attrs2, idx2, heq, h1.symm⟩

/-! ## Lemmas about the sequential sweep loop -/

/-- If the body succeeds on every element, the sequential loop
succeeds and collects the per-element results in order. -/
theorem mapExcept_ok_of_forall {α β ε : Type} {f : α → Except ε β} {g : α → β} :
    ∀ (xs : List α), (∀ x ∈ xs, f x = .ok (g x)) → mapExcept f xs = .ok (xs.map g)
  | [], _ => rfl
  | x :: xs, h => by
    rw [mapExcept, h x (List.mem_cons_self x xs),
      mapExcept_ok_of_forall xs (fun y hy => h y (List.mem_cons_of_mem x hy)), List.map_cons]

/-- A successful sequential loop has one output per input, and each
output comes from running the body on the input at the same
position. -/
theorem mapExcept_ok_inv {α β ε : Type} {f : α → Except ε β} :
    ∀ (xs : List α) (ys : List β), mapExcept f xs = .ok ys →
      ys.length = xs.length ∧
        ∀ (i : Nat) (x : α), xs[i]? = some x → ∃ y, ys[i]? = some y ∧ f x = .ok y := by
  intro xs
  induction xs with
  | nil =>
    intro ys h
    obtain rfl : ([] : List β) = ys := by
      simpa [mapExcept] using h
    exact ⟨rfl, by intro i x hx; simp at hx⟩
  | cons x xs ih =>
    intro ys h
    rw [mapExcept] at h
    cases hfx : f x with
    | error err => rw [hfx] at h; cases h
    | ok y =>
      rw [hfx] at h
      cases hrest : mapExcept f xs with
      | error err => rw [hrest] at h; cases h
      | ok ys' =>
        rw [hrest] at h
        obtain rfl : y :: ys' = ys := by simpa using h
        obtain ⟨hlen, hget⟩ := ih ys' hrest
        refine ⟨by simp [hlen], ?_⟩
        intro i z hz
        cases i with
        | zero =>
          simp at hz
          exact ⟨y, by simp, hz ▸ hfx⟩
        | succ j =>
          simp at hz
          obtain ⟨w, hw, hfw⟩ := hget j z hz
          exact ⟨w, by simpa using hw, hfw⟩

/-! ## The per-sweep simulator invocation as a total function -/

/-- The simulator invocation `run` performs for sweep `i` (experiment.py
lines 73-78), as a total function (out-of-range sweeps, which raise in
the code, return a junk default — the lemmas below only use it at
in-range sweeps). -/
def simTargetAt (e : GLIFExperiment) (i : Nat) : SimTargetOut :=
  match e.stim_list[i]?, e.grid_spike_index_target_list[i]?,
      e.target_spike_mask[i]?, e.interpolated_spike_time_target_list[i]? with
  | some stim, some gsi, some mask, some ist =>
    e.neuron.run_wrt_target_spike_train e.neuron.attrs
      e.init_voltage e.init_threshold e.init_AScurrents stim gsi mask ist
  | _, _, _, _ => default

/-- The simulator invocation `run_base_model` performs for sweep `i`
(experiment.py lines 130-133), as a total function. -/
def simFreeAt (e : GLIFExperiment) (i : Nat) : SimFreeOut :=
  match e.stim_list[i]? with
  | some stim =>
    e.neuron.run e.neuron.attrs e.init_voltage e.init_threshold e.init_AScurrents stim
  | none => default

/-- For an in-range sweep of a dataset whose per-sweep lists all have
the same length, the sweep body of `run` succeeds and returns the
sweep's simulator invocation. -/
theorem runSweep_ok_of_lengths (e : GLIFExperiment)
    (hg : e.grid_spike_index_target_list.length = e.stim_list.length)
    (hm : e.target_spike_mask.length = e.stim_list.length)
    (hi : e.interpolated_spike_time_target_list.length = e.stim_list.length)
    (i : Nat) (hlt : i < e.stim_list.length) :
    e.runSweep i = .ok (simTargetAt e i) := by
  have h1 := @List.getElem?_eq_getElem _ e.stim_list i hlt
  have h2 := @List.getElem?_eq_getElem _ e.grid_spike_index_target_list i (by omega)
  have h3 := @List.getElem?_eq_getElem _ e.target_spike_mask i (by omega)
  have h4 := @List.getElem?_eq_getElem _ e.interpolated_spike_time_target_list i (by omega)
  simp only [GLIFExperiment.runSweep, simTargetAt, h1, h2, h3, h4]

/-- For an in-range sweep, the sweep body of `run_base_model` succeeds
and returns the sweep's simulator invocation. -/
theorem runSweepBase_ok (e : GLIFExperiment) (i : Nat) (hlt : i < e.stim_list.length) :
    e.runSweepBase i = .ok (simFreeAt e i) := by
  have h1 : e.stim_list[i]? = some (e.stim_list[i]) := List.getElem?_eq_getElem hlt
  simp only [GLIFExperiment.runSweepBase, simFreeAt, h1]

/-- Characterization of a successful `run`: after a successful mapping
step and on a length-consistent dataset, `run` returns the mapped
experiment together with the stacked per-sweep simulator outputs, in
sweep order. -/
theorem run_eq_ok (e : GLIFExperiment) (pg : List Int) (e1 : GLIFExperiment)
    (hset : e.set_neuron_parameters pg = .ok e1)
    (hg : e.grid_spike_index_target_list.length = e.stim_list.length)
    (hm : e.target_spike_mask.length = e.stim_list.length)
    (hi : e.interpolated_spike_time_target_list.length = e.stim_list.length) :
    e.run pg = .ok (e1, mkRunResult ((List.range e.stim_list.length).map (simTargetAt e1))) := by
  obtain ⟨attrs2, idx2, hgo, he1⟩ := set_neuron_parameters_ok_inv e pg _ hset
  have hstim : e1.stim_list = e.stim_list := by rw [he1]
  have hg1 : e1.grid_spike_index_target_list.length = e1.stim_list.length := by
    rw [he1]; exact hg
  have hm1 : e1.target_spike_mask.length = e1.stim_list.length := by
    rw [he1]; exact hm
  have hi1 : e1.interpolated_spike_time_target_list.length = e1.stim_list.length := by
    rw [he1]; exact hi
  have hmap : mapExcept e1.runSweep (List.range e.stim_list.length) =
      .ok ((List.range e.stim_list.length).map (simTargetAt e1)) :=
    mapExcept_ok_of_forall _ (fun x hx =>
      runSweep_ok_of_lengths e1 hg1 hm1 hi1 x (by rw [hstim]; exact List.mem_range.mp hx))
  simp only [GLIFExperiment.run, hset, hmap]

/-- Characterization of a successful `run_base_model`. -/
theorem run_base_model_eq_ok (e : GLIFExperiment) (pg : List Int) (e1 : GLIFExperiment)
    (hset : e.set_neuron_parameters pg = .ok e1) :
    e.run_base_model pg =
      .ok (e1, mkBaseRunResult ((List.range e.stim_list.length).map (simFreeAt e1))) := by
  obtain ⟨attrs2, idx2, hgo, he1⟩ := set_neuron_parameters_ok_inv e pg _ hset
  have hstim : e1.stim_list = e.stim_list := by rw [he1]
  have hmap : mapExcept e1.runSweepBase (List.range e.stim_list.length) =
      .ok ((List.range e.stim_list.length).map (simFreeAt e1)) :=
    mapExcept_ok_of_forall _ (fun x hx =>
      runSweepBase_ok e1 x (by rw [hstim]; exact List.mem_range.mp hx))
  simp only [GLIFExperiment.run_base_model, hset, hmap]

/-! ## Inversion lemmas for the two run modes -/

/-- A successful `run` decomposes into a successful mapping step and a
successful sweep loop whose outputs are stacked. -/
theorem run_ok_inv (e : GLIFExperiment) (pg : List Int) (e1 : GLIFExperiment)
    (r : RunResult) (h : e.run pg = .ok (e1, r)) :
    e.set_neuron_parameters pg = .ok e1 ∧
      ∃ outs, mapExcept e1.runSweep (List.range e.stim_list.length) = .ok outs ∧
        r = mkRunResult outs := by
  rw [GLIFExperiment.run] at h
  split at h
  · cases h
  · rename_i e1' hset
    split at h
    · cases h
    · rename_i outs houts
      injection h with h1
      simp only [Prod.mk.injEq] at h1
      obtain ⟨he, hr⟩ := h1
      subst he
      subst hr
      exact ⟨hset, outs, houts, rfl⟩

/-- A successful `run_base_model` decomposes the same way. -/
theorem run_base_model_ok_inv (e : GLIFExperiment) (pg : List Int) (e1 : GLIFExperiment)
    (r : BaseRunResult) (h : e.run_base_model pg = .ok (e1, r)) :
    e.set_neuron_parameters pg = .ok e1 ∧
      ∃ outs, mapExcept e1.runSweepBase (List.range e.stim_list.length) = .ok outs ∧
        r = mkBaseRunResult outs := by
  rw [GLIFExperiment.run_base_model] at h
  split at h
  · cases h
  · rename_i e1' hset
    split at h
    · cases h
    · rename_i outs houts
      injection h with h1
      simp only [Prod.mk.injEq] at h1
      obtain ⟨he, hr⟩ := h1
      subst he
      subst hr
      exact ⟨hset, outs, houts, rfl⟩

/-! ## Concrete sample objects used by the witnesses -/

/-- A probe value extracted from the attribute store, letting the
sample simulators below produce outputs that depend on the fitted
attributes. -/
def probeVal (attrs : AttrMap) : Int :=
  match getattrOpt attrs "coeff_a_vector" with
  | some (.vector l) => l.headD 0
  | some (.scalar x) => x
  | none => 0

/-- A sample attribute store holding all six allow-listed attributes:
five scalars and one length-3 vector. -/
def sampleAttrs : AttrMap :=
  [("coeff_th", .scalar 0), ("coeff_C", .scalar 1), ("coeff_G", .scalar 2),
   ("coeff_a", .scalar 3), ("coeff_b", .scalar 4), ("coeff_a_vector", .vector [5, 6, 7])]

/-- A sample deterministic target-driven simulator. -/
def sampleSimTarget (attrs : AttrMap) (iv it ias stim gsi mask ist : Int) : SimTargetOut :=
  { voltage := probeVal attrs + stim, threshold := it, AScurrentMatrix := ias,
    gridTime := gsi, interpolatedTime := ist, gridISIFromLastTargSpike := mask,
    interpolatedISIFromLastTargSpike := iv, voltageOfModelAtGridBioSpike := 21,
    theshOfModelAtGridBioSpike := 22, voltageOfModelAtInterpolatedTargSpike := 23,
    thresholdOfModelAtInterpolatedTargSpike := 24 }

/-- A sample deterministic free-running simulator; its interpolated
spike voltage (7) and interpolated spike threshold (8) outputs differ,
making the line-142 channel swap observable. -/
def sampleSimFree (attrs : AttrMap) (iv it ias stim : Int) : SimFreeOut :=
  { voltage := probeVal attrs + stim, threshold := it, AScurrentMatrix := ias,
    gridSpikeTime := iv, interpolatedSpikeTime := 32, gridSpikeIndex := 33,
    interpolatedSpikeVoltage := 7, interpolatedSpikeThreshold := 8 }

/-- A sample neuron model. -/
def sampleNeuron : NeuronModel :=
  { attrs := sampleAttrs, dt := 1,
    run_wrt_target_spike_train := sampleSimTarget,
    run := sampleSimFree }

/-- A sample two-sweep experiment fitting one scalar and one vector
attribute. -/
def sampleExp : GLIFExperiment :=
  { neuron := sampleNeuron, dt := 1, stim_list := [10, 20],
    grid_spike_index_target_list := [100, 101], grid_spike_time_target_list := [200, 201],
    interpolated_spike_time_target_list := [300, 301], init_voltage := -70,
    init_threshold := -50, init_AScurrents := 6, target_spike_mask := [1, 1],
    fit_names_list := ["coeff_th", "coeff_a_vector"] }

/-- The attribute store after mapping `[9, 8, 7, 6]` onto `sampleExp`:
the scalar takes slot 0 and the length-3 vector takes slots 1-3. -/
def sampleAttrs1 : AttrMap :=
  [("coeff_th", .scalar 9), ("coeff_C", .scalar 1), ("coeff_G", .scalar 2),
   ("coeff_a", .scalar 3), ("coeff_b", .scalar 4), ("coeff_a_vector", .vector [8, 7, 6])]

/-- `sampleExp` after the mapping step. -/
def sampleExp1 : GLIFExperiment :=
  { sampleExp with neuron := { sampleNeuron with attrs := sampleAttrs1 } }

/-! ## C9 — empty fit list -/

/-- C9: for an empty `fit_names_list`, `set_neuron_parameters` succeeds
on every `param_guess` (the allow-list check vacuously passes and the
cursor loop performs no assignment) and returns the experiment with
every attribute unchanged. -/
theorem c9_empty_fit_names (e : GLIFExperiment) (pg : List Int)
    (h : e.fit_names_list = []) : e.set_neuron_parameters pg = .ok e := by
  cases e with
  | mk ne d sl g1 g2 g3 iv it ia m fl =>
    simp only at h
    subst h
    rfl

/-- Witness for C9 at a concrete experiment and parameter vector. -/
theorem c9_witness :
    GLIFExperiment.set_neuron_parameters { sampleExp with fit_names_list := [] } [3, 4] =
      .ok { sampleExp with fit_names_list := [] } :=
  c9_empty_fit_names { sampleExp with fit_names_list := [] } [3, 4] rfl

/-! ## C2 — allow-list violation -/

/-- C2: when `fit_names_list` contains a name outside `FIT_PARAMETERS`,
`set_neuron_parameters` fails with the configuration error raised by
the up-front allow-list check (experiment.py lines 153-154), before
any attribute is assigned, and both run modes fail the same way
without attempting any simulation — so the model state is returned
unchanged (the error carries no mutated experiment). -/
theorem c2_bad_name_config_error (e : GLIFExperiment) (pg : List Int)
    (h : ∃ n ∈ e.fit_names_list, n ∉ FIT_PARAMETERS) :
    e.set_neuron_parameters pg = .error .configError ∧
      e.run pg = .error .configError ∧
      e.run_base_model pg = .error .configError := by
  have hany : e.fit_names_list.any (fun param => decide (param ∉ FIT_PARAMETERS)) = true := by
    obtain ⟨n, hn, hnot⟩ := h
    exact List.any_eq_true.mpr ⟨n, hn, by simpa using hnot⟩
  have hset : e.set_neuron_parameters pg = .error .configError := by
    rw [GLIFExperiment.set_neuron_parameters, if_pos hany]
  refine ⟨hset, ?_, ?_⟩
  · simp only [GLIFExperiment.run, hset]
  · simp only [GLIFExperiment.run_base_model, hset]

/-- Witness for C2: a concrete fit list containing the unknown
attribute name "bogus". -/
theorem c2_witness :
    GLIFExperiment.set_neuron_parameters { sampleExp with fit_names_list := ["bogus"] } [1] =
        .error .configError ∧
      GLIFExperiment.run { sampleExp with fit_names_list := ["bogus"] } [1] =
        .error .configError ∧
      GLIFExperiment.run_base_model { sampleExp with fit_names_list := ["bogus"] } [1] =
        .error .configError :=
  c2_bad_name_config_error { sampleExp with fit_names_list := ["bogus"] } [1] (by decide)

/-! ## C5 — parameter vector shorter than the required slots -/

/-- Counterexample to C5 as stated: with the allow-listed fit list
`["coeff_th"]` (one scalar attribute, so one required slot) and the
empty parameter vector, `set_neuron_parameters` does raise — scalar
assignment indexes `param_guess[0]` past the end, an `IndexError` —
rather than silently truncating as the claim asserts for every
allow-listed fit list. -/
theorem c5_counterexample :
    GLIFExperiment.set_neuron_parameters { sampleExp with fit_names_list := ["coeff_th"] } [] =
      .error .indexError := rfl

/-- When every attribute named in the list is vector-valued, the cursor
loop can never raise: vector assignment only slices, and Python
slicing truncates silently. -/
theorem setParamsGo_all_vector (names : List String) (attrs : AttrMap) (idx : Nat)
    (pg : List Int)
    (h : ∀ n ∈ names, ∃ w, getattrOpt attrs n = some (.vector w)) :
    ∃ r, setParamsGo attrs names idx pg = .ok r := by
  induction names generalizing attrs idx with
  | nil => exact ⟨(attrs, idx), rfl⟩
  | cons n rest ih =>
    obtain ⟨w, hw⟩ := h n (List.mem_cons_self n rest)
    have hrest : ∀ m ∈ rest,
        ∃ u, getattrOpt (setattr attrs n (.vector (pySlice pg idx (idx + w.length)))) m =
          some (.vector u) := by
      intro m hm
      by_cases hmn : m = n
      · subst hmn
        exact ⟨_, getattrOpt_setattr_self _ _ _⟩
      · obtain ⟨u, hu⟩ := h m (List.mem_cons_of_mem n hm)
        exact ⟨u, by rw [getattrOpt_setattr_ne _ _ _ _ hmn, hu]⟩
    obtain ⟨r, hr⟩ := ih _ _ hrest
    exact ⟨r, by rw [setParamsGo, hw]; exact hr⟩

/-- C5 (amended): silent truncation holds on the vector side only.  If
every fitted attribute is vector-valued, a too-short `param_guess`
raises no error; in particular for a single vector attribute of
length above `param_guess.length`, the attribute silently receives
the whole (truncated) `param_guess`, and any excess values beyond the
required slots would likewise be ignored by the slice.  (A scalar
attribute whose slot falls past the end instead raises an index
error, per the counterexample.) -/
theorem c5_truncation (e : GLIFExperiment) (pg : List Int)
    (hallow : ∀ n ∈ e.fit_names_list, n ∈ FIT_PARAMETERS)
    (hvec : ∀ n ∈ e.fit_names_list, ∃ w, getattrOpt e.neuron.attrs n = some (.vector w)) :
    (∃ e1, e.set_neuron_parameters pg = .ok e1) ∧
      (∀ vn w, e.fit_names_list = [vn] →
        getattrOpt e.neuron.attrs vn = some (.vector w) → pg.length < w.length →
        (e.set_neuron_parameters pg).map (fun e1 => getattrOpt e1.neuron.attrs vn) =
          .ok (some (.vector pg))) := by
  have hany : e.fit_names_list.any (fun param => decide (param ∉ FIT_PARAMETERS)) = false := by
    rw [List.any_eq_false]
    intro x hx
    simpa using hallow x hx
  constructor
  · obtain ⟨⟨attrs2, idx2⟩, hr⟩ := setParamsGo_all_vector e.fit_names_list e.neuron.attrs 0 pg hvec
    refine ⟨{ e with neuron := { e.neuron with attrs := attrs2 } }, ?_⟩
    simp only [GLIFExperiment.set_neuron_parameters, hany, Bool.false_eq_true, if_false, hr]
  · intro vn w hfit hw hlen
    have hslice : pySlice pg 0 (0 + w.length) = pg := by
      simpa [pySlice] using List.take_of_length_le (le_of_lt hlen)
    have hgo : setParamsGo e.neuron.attrs [vn] 0 pg =
        .ok (setattr e.neuron.attrs vn (.vector pg), 0 + w.length) := by
      simp only [setParamsGo, hw, hslice]
    rw [← hfit] at hgo
    have hno : ¬ ∃ x ∈ e.fit_names_list, x ∉ FIT_PARAMETERS := by
      rintro ⟨x, hx, hnx⟩
      exact hnx (hallow x hx)
    simp [GLIFExperiment.set_neuron_parameters, hany, hgo, Except.map,
      getattrOpt_setattr_self, hno]

/-- Witness for the amended C5: fitting only the length-3 vector
attribute with the length-1 parameter vector `[9]` succeeds and
leaves the attribute holding the truncated vector `[9]`. -/
theorem c5_witness :
    (∃ e1, GLIFExperiment.set_neuron_parameters
        { sampleExp with fit_names_list := ["coeff_a_vector"] } [9] = .ok e1) ∧
      (∀ vn w,
        ({ sampleExp with fit_names_list := ["coeff_a_vector"] } :
            GLIFExperiment).fit_names_list = [vn] →
        getattrOpt ({ sampleExp with fit_names_list := ["coeff_a_vector"] } :
            GLIFExperiment).neuron.attrs vn = some (.vector w) →
        ([9] : List Int).length < w.length →
        (GLIFExperiment.set_neuron_parameters
            { sampleExp with fit_names_list := ["coeff_a_vector"] } [9]).map
          (fun e1 => getattrOpt e1.neuron.attrs vn) = .ok (some (.vector [9]))) :=
  c5_truncation { sampleExp with fit_names_list := ["coeff_a_vector"] } [9]
    (by decide)
    (fun n hn => by
      simp only [List.mem_singleton] at hn
      subst hn
      exact ⟨[5, 6, 7], rfl⟩)

/-! ## C4 — the line-142 channel swap in free-running mode -/

/-- C4: in every successful `run_base_model`, the
interpolated-spike-threshold output list coincides with the
interpolated-spike-voltage output list — each sweep's entry is the
simulator's interpolated spike *voltage* value (experiment.py line 142
appends `interpolatedSpikeVoltage`), not the interpolated spike
threshold value the simulator returned. -/
theorem c4_interp_threshold_is_voltage (e : GLIFExperiment) (pg : List Int)
    (e1 : GLIFExperiment) (r : BaseRunResult)
    (h : e.run_base_model pg = .ok (e1, r)) :
    r.interpolatedSpikeThreshold_list = r.interpolatedSpikeVoltage_list ∧
      ∀ (i : Nat), i < e.stim_list.length →
        r.interpolatedSpikeThreshold_list[i]? =
          some ((simFreeAt e1 i).interpolatedSpikeVoltage) := by
  obtain ⟨hset, outs, houts, rfl⟩ := run_base_model_ok_inv e pg e1 r h
  refine ⟨rfl, ?_⟩
  intro i hi
  obtain ⟨hlen, hget⟩ := mapExcept_ok_inv _ _ houts
  have hri : (List.range e.stim_list.length)[i]? = some i := List.getElem?_range hi
  obtain ⟨y, hy, hfy⟩ := hget i i hri
  have hstim : e1.stim_list = e.stim_list := by
    obtain ⟨a2, i2, hgo, he1⟩ := set_neuron_parameters_ok_inv e pg e1 hset
    rw [he1]
  have hok := runSweepBase_ok e1 i (by rw [hstim]; exact hi)
  rw [hfy] at hok
  injection hok with hy2
  subst hy2
  simp [mkBaseRunResult, List.getElem?_map, hy]

/-- The free-running result bundle of `sampleExp` after mapping
`[9, 8, 7, 6]`: both interpolated-spike channels hold the simulator's
voltage value 7 (its threshold value was 8). -/
def c4SampleResult : BaseRunResult :=
  { voltage_list := [18, 28], threshold_list := [-50, -50], AScurrentMatrix_list := [6, 6],
    gridSpikeTime_list := [-70, -70], interpolatedSpikeTime_list := [32, 32],
    gridSpikeIndex_list := [33, 33], interpolatedSpikeVoltage_list := [7, 7],
    interpolatedSpikeThreshold_list := [7, 7] }

/-- Witness for C4 at the concrete sample experiment. -/
theorem c4_witness :
    c4SampleResult.interpolatedSpikeThreshold_list =
        c4SampleResult.interpolatedSpikeVoltage_list ∧
      ∀ (i : Nat), i < sampleExp.stim_list.length →
        c4SampleResult.interpolatedSpikeThreshold_list[i]? =
          some ((simFreeAt sampleExp1 i).interpolatedSpikeVoltage) :=
  c4_interp_threshold_is_voltage sampleExp [9, 8, 7, 6] sampleExp1 c4SampleResult (by rfl)

/-! ## C3 — bundle shape and sweep order -/

/-- All eleven output lists of a target-driven result bundle have
length `n`. -/
def runLengthsAre (r : RunResult) (n : Nat) : Prop :=
  r.voltage_list.length = n ∧ r.threshold_list.length = n ∧
    r.AScurrentMatrix_list.length = n ∧ r.gridTime_list.length = n ∧
    r.interpolatedTime_list.length = n ∧ r.gridISIFromLastTargSpike_list.length = n ∧
    r.interpolatedISIFromLastTargSpike_list.length = n ∧
    r.voltageOfModelAtGridBioSpike_list.length = n ∧
    r.theshOfModelAtGridBioSpike_list.length = n ∧
    r.voltageOfModelAtInterpolatedBioSpike_list.length = n ∧
    r.thresholdOfModelAtInterpolatedBioSpike_list.length = n

/-- Position `i` of every output list of a target-driven result bundle
holds the corresponding component of the simulator output `o`. -/
def runEntryIs (r : RunResult) (i : Nat) (o : SimTargetOut) : Prop :=
  r.voltage_list[i]? = some o.voltage ∧ r.threshold_list[i]? = some o.threshold ∧
    r.AScurrentMatrix_list[i]? = some o.AScurrentMatrix ∧
    r.gridTime_list[i]? = some o.gridTime ∧
    r.interpolatedTime_list[i]? = some o.interpolatedTime ∧
    r.gridISIFromLastTargSpike_list[i]? = some o.gridISIFromLastTargSpike ∧
    r.interpolatedISIFromLastTargSpike_list[i]? = some o.interpolatedISIFromLastTargSpike ∧
    r.voltageOfModelAtGridBioSpike_list[i]? = some o.voltageOfModelAtGridBioSpike ∧
    r.theshOfModelAtGridBioSpike_list[i]? = some o.theshOfModelAtGridBioSpike ∧
    r.voltageOfModelAtInterpolatedBioSpike_list[i]? =
      some o.voltageOfModelAtInterpolatedTargSpike ∧
    r.thresholdOfModelAtInterpolatedBioSpike_list[i]? =
      some o.thresholdOfModelAtInterpolatedTargSpike

/-- All eight output lists of a free-running result bundle have
length `n`. -/
def baseLengthsAre (r : BaseRunResult) (n : Nat) : Prop :=
  r.voltage_list.length = n ∧ r.threshold_list.length = n ∧
    r.AScurrentMatrix_list.length = n ∧ r.gridSpikeTime_list.length = n ∧
    r.interpolatedSpikeTime_list.length = n ∧ r.gridSpikeIndex_list.length = n ∧
    r.interpolatedSpikeVoltage_list.length = n ∧ r.interpolatedSpikeThreshold_list.length = n

/-- Position `i` of every output list of a free-running result bundle
holds the corresponding component of the simulator output `o` (the
interpolated-spike-threshold list holding `o`'s voltage component, per
experiment.py line 142). -/
def baseEntryIs (r : BaseRunResult) (i : Nat) (o : SimFreeOut) : Prop :=
  r.voltage_list[i]? = some o.voltage ∧ r.threshold_list[i]? = some o.threshold ∧
    r.AScurrentMatrix_list[i]? = some o.AScurrentMatrix ∧
    r.gridSpikeTime_list[i]? = some o.gridSpikeTime ∧
    r.interpolatedSpikeTime_list[i]? = some o.interpolatedSpikeTime ∧
    r.gridSpikeIndex_list[i]? = some o.gridSpikeIndex ∧
    r.interpolatedSpikeVoltage_list[i]? = some o.interpolatedSpikeVoltage ∧
    r.interpolatedSpikeThreshold_list[i]? = some o.interpolatedSpikeVoltage

/-- Stacking `outs` gives eleven lists of length `outs.length`. -/
theorem mkRunResult_lengths (outs : List SimTargetOut) :
    runLengthsAre (mkRunResult outs) outs.length := by
  simp [mkRunResult, runLengthsAre]

/-- Position `i` of the stacked lists is the `i`-th collected simulator
output. -/
theorem mkRunResult_entry (outs : List SimTargetOut) (i : Nat) (o : SimTargetOut)
    (h : outs[i]? = some o) : runEntryIs (mkRunResult outs) i o := by
  simp [mkRunResult, runEntryIs, List.getElem?_map, h]

/-- Stacking `outs` gives eight lists of length `outs.length`. -/
theorem mkBaseRunResult_lengths (outs : List SimFreeOut) :
    baseLengthsAre (mkBaseRunResult outs) outs.length := by
  simp [mkBaseRunResult, baseLengthsAre]

/-- Position `i` of the stacked free-running lists is the `i`-th
collected simulator output. -/
theorem mkBaseRunResult_entry (outs : List SimFreeOut) (i : Nat) (o : SimFreeOut)
    (h : outs[i]? = some o) : baseEntryIs (mkBaseRunResult outs) i o := by
  simp [mkBaseRunResult, baseEntryIs, List.getElem?_map, h]

/-- C3: on a dataset with `n` sweeps (all per-sweep lists of length
`n`) and a parameter vector on which the mapping step succeeds, `run`
returns eleven parallel result lists each of length `n` and
`run_base_model` returns eight, and position `i` of every list is the
corresponding component of the simulation of sweep `i` — sweep order
preserved, no reordering, no deduplication. -/
theorem c3_bundle_shape (e : GLIFExperiment) (pg : List Int) (e1 : GLIFExperiment)
    (hset : e.set_neuron_parameters pg = .ok e1)
    (hg : e.grid_spike_index_target_list.length = e.stim_list.length)
    (hm : e.target_spike_mask.length = e.stim_list.length)
    (hi : e.interpolated_spike_time_target_list.length = e.stim_list.length) :
    (∃ r, e.run pg = .ok (e1, r) ∧ runLengthsAre r e.stim_list.length ∧
      ∀ (i : Nat), i < e.stim_list.length → runEntryIs r i (simTargetAt e1 i)) ∧
    (∃ rb, e.run_base_model pg = .ok (e1, rb) ∧ baseLengthsAre rb e.stim_list.length ∧
      ∀ (i : Nat), i < e.stim_list.length → baseEntryIs rb i (simFreeAt e1 i)) := by
  constructor
  · refine ⟨_, run_eq_ok e pg e1 hset hg hm hi, ?_, ?_⟩
    · have h := mkRunResult_lengths ((List.range e.stim_list.length).map (simTargetAt e1))
      simpa using h
    · intro i hilt
      exact mkRunResult_entry _ i _ (by simp [List.getElem?_map, List.getElem?_range hilt])
  · refine ⟨_, run_base_model_eq_ok e pg e1 hset, ?_, ?_⟩
    · have h := mkBaseRunResult_lengths ((List.range e.stim_list.length).map (simFreeAt e1))
      simpa using h
    · intro i hilt
      exact mkBaseRunResult_entry _ i _ (by simp [List.getElem?_map, List.getElem?_range hilt])

/-- Witness for C3 on the two-sweep sample experiment. -/
theorem c3_witness :
    (∃ r, sampleExp.run [9, 8, 7, 6] = .ok (sampleExp1, r) ∧
      runLengthsAre r sampleExp.stim_list.length ∧
      ∀ (i : Nat), i < sampleExp.stim_list.length → runEntryIs r i (simTargetAt sampleExp1 i)) ∧
    (∃ rb, sampleExp.run_base_model [9, 8, 7, 6] = .ok (sampleExp1, rb) ∧
      baseLengthsAre rb sampleExp.stim_list.length ∧
      ∀ (i : Nat), i < sampleExp.stim_list.length → baseEntryIs rb i (simFreeAt sampleExp1 i)) :=
  c3_bundle_shape sampleExp [9, 8, 7, 6] sampleExp1 (by rfl) rfl rfl rfl

/-! ## The cursor layout as name-to-slice pairs (for C1 and C6) -/

/-- The attribute names of a list of (name, new value) pairs. -/
def keysOf (ps : List (String × AttrValue)) : List String := ps.map Prod.fst

/-- The parameter-vector slice a new attribute value consumes: one slot
for a scalar, the elements themselves for a vector. -/
def sliceOfVal : AttrValue → List Int
  | .scalar x => [x]
  | .vector l => l

/-- The flat parameter vector laid out from the per-attribute slices,
in order. -/
def flatSlices (ps : List (String × AttrValue)) : List Int :=
  (ps.map (fun p => sliceOfVal p.2)).flatten

/-- The pair `(name, new value)` is consistent with the store: the
attribute exists, has the same scalar/vector kind as the new value,
and for vectors the same length (so its slice fills its slots
exactly). -/
def pairConsistent (attrs : AttrMap) (p : String × AttrValue) : Prop :=
  match p.2 with
  | .scalar _ => ∃ x, getattrOpt attrs p.1 = some (.scalar x)
  | .vector l => ∃ w, getattrOpt attrs p.1 = some (.vector w) ∧ w.length = l.length

/-- Sequentially write each pair into the store. -/
def applyPairs (attrs : AttrMap) : List (String × AttrValue) → AttrMap
  | [] => attrs
  | (n, v) :: rest => applyPairs (setattr attrs n v) rest

/-- The left-to-right cursor loop, fed the concatenation of the
per-attribute slices, assigns each (distinct) attribute exactly its
own slice and advances the cursor by exactly the consumed width: the
layout contract of the fit specification. -/
theorem setParamsGo_pairs (ps : List (String × AttrValue)) :
    ∀ (attrs : AttrMap) (pre suf : List Int),
      (keysOf ps).Nodup → (∀ p ∈ ps, pairConsistent attrs p) →
      setParamsGo attrs (keysOf ps) pre.length (pre ++ (flatSlices ps ++ suf)) =
        .ok (applyPairs attrs ps, pre.length + (flatSlices ps).length) := by
  induction ps with
  | nil =>
    intro attrs pre suf _ _
    simp [keysOf, flatSlices, setParamsGo, applyPairs]
  | cons p rest ih =>
    intro attrs pre suf hnodup hcons
    obtain ⟨n, v⟩ := p
    rw [show keysOf ((n, v) :: rest) = n :: keysOf rest from rfl] at hnodup
    obtain ⟨hn, hnd⟩ := List.nodup_cons.mp hnodup
    have hne : ∀ q ∈ rest, q.1 ≠ n := by
      intro q hq hc
      exact hn (hc ▸ List.mem_map_of_mem Prod.fst hq)
    have htrans : ∀ (val : AttrValue) (q : String × AttrValue), q ∈ rest →
        pairConsistent (setattr attrs n val) q := by
      intro val q hq
      obtain ⟨qn, qv⟩ := q
      have hq1 : getattrOpt (setattr attrs n val) qn = getattrOpt attrs qn :=
        getattrOpt_setattr_ne _ _ _ _ (hne (qn, qv) hq)
      have h0 := hcons (qn, qv) (List.mem_cons_of_mem _ hq)
      cases qv with
      | scalar x =>
        obtain ⟨y, hy⟩ := h0
        exact ⟨y, by rw [hq1]; exact hy⟩
      | vector l =>
        obtain ⟨w, hw, hwl⟩ := h0
        exact ⟨w, by rw [hq1]; exact hw, hwl⟩
    cases v with
    | scalar x =>
      obtain ⟨y, hy⟩ := hcons (n, .scalar x) (List.mem_cons_self _ _)
      have hflat : flatSlices ((n, AttrValue.scalar x) :: rest) = x :: flatSlices rest := by
        simp [flatSlices, sliceOfVal]
      have hidx : (pre ++ (flatSlices ((n, AttrValue.scalar x) :: rest) ++ suf))[pre.length]? =
          some x := by
        rw [hflat, List.getElem?_append_right (Nat.le_refl pre.length)]
        simp
      have hpg : pre ++ (flatSlices ((n, AttrValue.scalar x) :: rest) ++ suf) =
          (pre ++ [x]) ++ (flatSlices rest ++ suf) := by
        rw [hflat]; simp
      rw [show keysOf ((n, AttrValue.scalar x) :: rest) = n :: keysOf rest from rfl]
      simp only [setParamsGo, hy, hidx]
      rw [hpg, show pre.length + 1 = (pre ++ [x]).length from by simp,
        ih (setattr attrs n (AttrValue.scalar x)) (pre ++ [x]) suf hnd (htrans _)]
      simp only [Except.ok.injEq, Prod.mk.injEq, hflat, List.length_append,
        List.length_cons, List.length_nil]
      exact ⟨rfl, by omega⟩
    | vector l =>
      obtain ⟨w, hw, hwl⟩ := hcons (n, .vector l) (List.mem_cons_self _ _)
      have hflat : flatSlices ((n, AttrValue.vector l) :: rest) = l ++ flatSlices rest := by
        simp [flatSlices, sliceOfVal]
      have hpg : pre ++ (flatSlices ((n, AttrValue.vector l) :: rest) ++ suf) =
          (pre ++ l) ++ (flatSlices rest ++ suf) := by
        rw [hflat]; simp
      have hslice : pySlice (pre ++ (flatSlices ((n, AttrValue.vector l) :: rest) ++ suf))
          pre.length (pre.length + w.length) = l := by
        rw [pySlice, hpg, List.append_assoc, List.drop_left, Nat.add_sub_cancel_left,
          hwl, List.take_left]
      rw [show keysOf ((n, AttrValue.vector l) :: rest) = n :: keysOf rest from rfl]
      simp only [setParamsGo, hw, hslice]
      rw [hpg, show pre.length + w.length = (pre ++ l).length from by simp [hwl],
        ih (setattr attrs n (AttrValue.vector l)) (pre ++ l) suf hnd (htrans _)]
      simp only [Except.ok.injEq, Prod.mk.injEq, hflat, List.length_append]
      exact ⟨rfl, by omega⟩

/-- `set_neuron_parameters` on a duplicate-free allow-listed fit
specification laid out as pairs: writes exactly the paired values. -/
theorem set_neuron_parameters_pairs (e : GLIFExperiment) (ps : List (String × AttrValue))
    (hfit : e.fit_names_list = keysOf ps)
    (hallow : ∀ n ∈ keysOf ps, n ∈ FIT_PARAMETERS)
    (hnodup : (keysOf ps).Nodup)
    (hcons : ∀ p ∈ ps, pairConsistent e.neuron.attrs p) :
    e.set_neuron_parameters (flatSlices ps) =
      .ok { e with neuron := { e.neuron with attrs := applyPairs e.neuron.attrs ps } } := by
  have hany : e.fit_names_list.any (fun param => decide (param ∉ FIT_PARAMETERS)) = false := by
    rw [List.any_eq_false]
    intro x hx
    rw [hfit] at hx
    simpa using hallow x hx
  have hgo := setParamsGo_pairs ps e.neuron.attrs [] [] hnodup hcons
  simp only [List.nil_append, List.append_nil, List.length_nil, Nat.zero_add] at hgo
  rw [← hfit] at hgo
  simp only [GLIFExperiment.set_neuron_parameters, hany, Bool.false_eq_true, if_false, hgo]

/-! ## C1 — the scalar-then-vector layout instance -/

/-- C1: the cursor assigns slots left to right — for a fit
specification `[s, v]` with `s` scalar-valued and `v` vector-valued of
current length 3, mapping `[v0, v1, v2, v3]` puts `v0` into `s` and
the next three consecutive values `[v1, v2, v3]` into `v`, the cursor
having advanced by 1 and then by 3. -/
theorem c1_scalar_vector_layout (e : GLIFExperiment) (s v : String) (x0 : Int)
    (w : List Int) (v0 v1 v2 v3 : Int)
    (hs : s ∈ FIT_PARAMETERS) (hv : v ∈ FIT_PARAMETERS) (hne : s ≠ v)
    (hfit : e.fit_names_list = [s, v])
    (hsv : getattrOpt e.neuron.attrs s = some (.scalar x0))
    (hvv : getattrOpt e.neuron.attrs v = some (.vector w)) (hw : w.length = 3) :
    ∃ e1, e.set_neuron_parameters [v0, v1, v2, v3] = .ok e1 ∧
      getattrOpt e1.neuron.attrs s = some (.scalar v0) ∧
      getattrOpt e1.neuron.attrs v = some (.vector [v1, v2, v3]) := by
  have hpairs := set_neuron_parameters_pairs e
    [(s, AttrValue.scalar v0), (v, AttrValue.vector [v1, v2, v3])]
    (by simpa [keysOf] using hfit)
    (by
      intro n hn
      simp only [keysOf, List.map_cons, List.map_nil, List.mem_cons,
        List.not_mem_nil, or_false] at hn
      rcases hn with rfl | rfl
      · exact hs
      · exact hv)
    (by simp [keysOf, hne])
    (by
      intro p hp
      simp only [List.mem_cons, List.not_mem_nil, or_false] at hp
      rcases hp with rfl | rfl
      · exact ⟨x0, hsv⟩
      · exact ⟨w, hvv, by rw [hw]; rfl⟩)
  refine ⟨_, by simpa [flatSlices, sliceOfVal] using hpairs, ?_, ?_⟩
  · show getattrOpt
      (applyPairs e.neuron.attrs [(s, AttrValue.scalar v0), (v, AttrValue.vector [v1, v2, v3])])
      s = some (AttrValue.scalar v0)
    show getattrOpt
      (setattr (setattr e.neuron.attrs s (AttrValue.scalar v0)) v (AttrValue.vector [v1, v2, v3]))
      s = some (AttrValue.scalar v0)
    rw [getattrOpt_setattr_ne _ _ _ _ hne, getattrOpt_setattr_self]
  · show getattrOpt
      (setattr (setattr e.neuron.attrs s (AttrValue.scalar v0)) v (AttrValue.vector [v1, v2, v3]))
      v = some (AttrValue.vector [v1, v2, v3])
    rw [getattrOpt_setattr_self]

/-- Witness for C1 on the sample experiment: `coeff_th` gets 9 and
`coeff_a_vector` gets `[8, 7, 6]` from the vector `[9, 8, 7, 6]`. -/
theorem c1_witness :
    ∃ e1, sampleExp.set_neuron_parameters [9, 8, 7, 6] = .ok e1 ∧
      getattrOpt e1.neuron.attrs "coeff_th" = some (.scalar 9) ∧
      getattrOpt e1.neuron.attrs "coeff_a_vector" = some (.vector [8, 7, 6]) :=
  c1_scalar_vector_layout sampleExp "coeff_th" "coeff_a_vector" 0 [5, 6, 7] 9 8 7 6
    (by decide) (by decide) (by decide) rfl rfl rfl rfl

/-! ## C6 — order invariance of the fit specification -/

/-- Counterexample to C6 as stated: with the duplicate (and
allow-listed) fit specification `["coeff_th", "coeff_th"]`, swapping
its two entries leaves the name list unchanged but reorders the two
one-slot slices, and the final value of `coeff_th` — last write wins —
changes from 1 to 0.  Order invariance fails when the swapped entries
name the same attribute. -/
theorem c6_counterexample :
    ((GLIFExperiment.set_neuron_parameters
        { sampleExp with fit_names_list := ["coeff_th", "coeff_th"] } [0, 1]).map
      (fun e1 => getattrOpt e1.neuron.attrs "coeff_th") = .ok (some (.scalar 1))) ∧
    ((GLIFExperiment.set_neuron_parameters
        { sampleExp with fit_names_list := ["coeff_th", "coeff_th"] } [1, 0]).map
      (fun e1 => getattrOpt e1.neuron.attrs "coeff_th") = .ok (some (.scalar 0))) ∧
    some (AttrValue.scalar 1) ≠ some (AttrValue.scalar 0) :=
  ⟨rfl, rfl, by decide⟩

/-- First-match lookup in a pair list. -/
def lookupPair : List (String × AttrValue) → String → Option AttrValue
  | [], _ => none
  | (n, v) :: rest, k => if n = k then some v else lookupPair rest k

/-- A key absent from the pair list looks up to nothing. -/
theorem lookupPair_eq_none (ps : List (String × AttrValue)) (k : String)
    (h : k ∉ keysOf ps) : lookupPair ps k = none := by
  induction ps with
  | nil => rfl
  | cons p rest ih =>
    obtain ⟨n, v⟩ := p
    have hk : n ≠ k := by
      intro hc
      exact h (hc ▸ List.mem_cons_self n (keysOf rest))
    have hrest : k ∉ keysOf rest := fun hc => h (List.mem_cons_of_mem n hc)
    simp [lookupPair, hk, ih hrest]

/-- After writing a duplicate-free pair list, each key holds its paired
value (and untouched keys keep their old value). -/
theorem getattrOpt_applyPairs (ps : List (String × AttrValue)) :
    ∀ (attrs : AttrMap) (k : String), (keysOf ps).Nodup →
      getattrOpt (applyPairs attrs ps) k =
        ((lookupPair ps k).rec (getattrOpt attrs k) (fun v => some v)) := by
  induction ps with
  | nil => intro attrs k _; rfl
  | cons p rest ih =>
    intro attrs k hnodup
    obtain ⟨n, v⟩ := p
    rw [show keysOf ((n, v) :: rest) = n :: keysOf rest from rfl] at hnodup
    obtain ⟨hn, hnd⟩ := List.nodup_cons.mp hnodup
    rw [show applyPairs attrs ((n, v) :: rest) = applyPairs (setattr attrs n v) rest from rfl,
      ih _ k hnd]
    by_cases hk : n = k
    · subst hk
      rw [lookupPair_eq_none rest n hn]
      simp [lookupPair, getattrOpt_setattr_self]
    · simp only [lookupPair, hk, if_false]
      cases lookupPair rest k with
      | none =>
        simp [getattrOpt_setattr_ne _ _ _ _ (fun hc => hk hc.symm)]
      | some u => rfl

/-- First-match lookup is invariant under permutation of a
duplicate-free pair list. -/
theorem lookupPair_perm (ps ps' : List (String × AttrValue)) (hperm : ps.Perm ps')
    (hnodup : (keysOf ps).Nodup) (k : String) : lookupPair ps k = lookupPair ps' k := by
  induction hperm with
  | nil => rfl
  | cons x h ih =>
    obtain ⟨n, v⟩ := x
    rw [show keysOf ((n, v) :: _) = n :: keysOf _ from rfl] at hnodup
    obtain ⟨_, hnd⟩ := List.nodup_cons.mp hnodup
    simp [lookupPair, ih hnd]
  | swap x y l =>
    obtain ⟨nx, vx⟩ := x
    obtain ⟨ny, vy⟩ := y
    have hxy : ny ≠ nx := by
      rw [show keysOf ((ny, vy) :: (nx, vx) :: l) = ny :: nx :: keysOf l from rfl] at hnodup
      obtain ⟨hny, _⟩ := List.nodup_cons.mp hnodup
      intro hc
      exact hny (hc ▸ List.mem_cons_self nx (keysOf l))
    have hyx : nx ≠ ny := fun hc => hxy hc.symm
    by_cases h1 : ny = k
    · subst h1
      simp [lookupPair, hyx]
    · by_cases h2 : nx = k
      · subst h2
        simp [lookupPair, h1]
      · simp [lookupPair, h1, h2]
  | trans h1 h2 ih1 ih2 =>
    have hnodup2 := ((h1.map Prod.fst).nodup_iff).mp hnodup
    rw [ih1 hnodup, ih2 hnodup2]

/-- C6 (amended): swapping (indeed arbitrarily permuting) the entries
of a duplicate-free allow-listed fit specification, with the
per-attribute slices of the parameter vector reordered
correspondingly, yields identical final values for every attribute of
the model.  (Without the duplicate-free restriction the claim fails,
per the counterexample.) -/
theorem c6_order_invariance (e : GLIFExperiment) (ps ps' : List (String × AttrValue))
    (hperm : ps.Perm ps') (hnodup : (keysOf ps).Nodup)
    (hallow : ∀ n ∈ keysOf ps, n ∈ FIT_PARAMETERS)
    (hcons : ∀ p ∈ ps, pairConsistent e.neuron.attrs p) :
    ∃ e1 e2,
      GLIFExperiment.set_neuron_parameters { e with fit_names_list := keysOf ps }
          (flatSlices ps) = .ok e1 ∧
        GLIFExperiment.set_neuron_parameters { e with fit_names_list := keysOf ps' }
          (flatSlices ps') = .ok e2 ∧
        ∀ k, getattrOpt e1.neuron.attrs k = getattrOpt e2.neuron.attrs k := by
  have hkeysPerm : (keysOf ps).Perm (keysOf ps') := hperm.map Prod.fst
  have hnodup' : (keysOf ps').Nodup := hkeysPerm.nodup_iff.mp hnodup
  have hallow' : ∀ n ∈ keysOf ps', n ∈ FIT_PARAMETERS := fun n hn =>
    hallow n (hkeysPerm.mem_iff.mpr hn)
  have hcons' : ∀ p ∈ ps', pairConsistent e.neuron.attrs p := fun p hp =>
    hcons p (hperm.mem_iff.mpr hp)
  have h1 := set_neuron_parameters_pairs { e with fit_names_list := keysOf ps } ps rfl
    hallow hnodup hcons
  have h2 := set_neuron_parameters_pairs { e with fit_names_list := keysOf ps' } ps' rfl
    hallow' hnodup' hcons'
  refine ⟨_, _, h1, h2, ?_⟩
  intro k
  show getattrOpt (applyPairs e.neuron.attrs ps) k =
    getattrOpt (applyPairs e.neuron.attrs ps') k
  rw [getattrOpt_applyPairs ps _ k hnodup, getattrOpt_applyPairs ps' _ k hnodup',
    lookupPair_perm ps ps' hperm hnodup k]

/-- The concrete pair layout for the C6 witness: scalar `coeff_th`
then vector `coeff_a_vector`. -/
def c6ps : List (String × AttrValue) :=
  [("coeff_th", AttrValue.scalar 9), ("coeff_a_vector", AttrValue.vector [8, 7, 6])]

/-- The same pairs with the two entries swapped. -/
def c6psSwapped : List (String × AttrValue) :=
  [("coeff_a_vector", AttrValue.vector [8, 7, 6]), ("coeff_th", AttrValue.scalar 9)]

/-- Witness for the amended C6: swapping the two (distinct) entries
and their slices leaves every final attribute value unchanged. -/
theorem c6_witness :
    ∃ e1 e2,
      GLIFExperiment.set_neuron_parameters { sampleExp with fit_names_list := keysOf c6ps }
          (flatSlices c6ps) = .ok e1 ∧
        GLIFExperiment.set_neuron_parameters
          { sampleExp with fit_names_list := keysOf c6psSwapped }
          (flatSlices c6psSwapped) = .ok e2 ∧
        ∀ k, getattrOpt e1.neuron.attrs k = getattrOpt e2.neuron.attrs k :=
  c6_order_invariance sampleExp c6ps c6psSwapped (by decide) (by decide)
    (by decide)
    (fun p hp => by
      simp only [c6ps, List.mem_cons, List.not_mem_nil, or_false] at hp
      rcases hp with rfl | rfl
      · exact ⟨0, rfl⟩
      · exact ⟨[5, 6, 7], rfl, rfl⟩)

/-! ## C8 — frame property of the two run modes -/

/-- C8: a successful `run` changes nothing but the attribute store of
the neuron — the dataset lists, the initial
(voltage, threshold, AS-currents) triple, both time steps, the fit
specification and the simulator entry points are all kept (first
conjunct); attributes outside `fit_names_list` are untouched (second
conjunct); and every sweep's bundle entry comes from the simulator
applied to the stored initial triple of the unmodified experiment
(third conjunct, voltage channel shown).  A `run_base_model` call on
the same arguments mutates the model to the same state and has the
same shape (fourth conjunct). -/
theorem c8_frame (e : GLIFExperiment) (pg : List Int) (e1 : GLIFExperiment) (r : RunResult)
    (h : e.run pg = .ok (e1, r)) :
    e1 = { e with neuron := { e.neuron with attrs := e1.neuron.attrs } } ∧
      (∀ k, k ∉ e.fit_names_list →
        getattrOpt e1.neuron.attrs k = getattrOpt e.neuron.attrs k) ∧
      (∀ (i : Nat) (stim gsi mask ist : Int),
        e.stim_list[i]? = some stim → e.grid_spike_index_target_list[i]? = some gsi →
        e.target_spike_mask[i]? = some mask →
        e.interpolated_spike_time_target_list[i]? = some ist →
        r.voltage_list[i]? = some ((e.neuron.run_wrt_target_spike_train e1.neuron.attrs
          e.init_voltage e.init_threshold e.init_AScurrents stim gsi mask ist).voltage)) ∧
      (∀ e2 r2, e.run_base_model pg = .ok (e2, r2) → e2 = e1 ∧
        ∀ (i : Nat) (stim : Int), e.stim_list[i]? = some stim →
          r2.voltage_list[i]? = some ((e.neuron.run e1.neuron.attrs
            e.init_voltage e.init_threshold e.init_AScurrents stim).voltage)) := by
  obtain ⟨hset, outs, houts, rfl⟩ := run_ok_inv e pg e1 r h
  obtain ⟨attrs2, idx2, hgo, he1⟩ := set_neuron_parameters_ok_inv e pg e1 hset
  refine ⟨?_, ?_, ?_, ?_⟩
  · rw [he1]
  · intro k hk
    rw [he1]
    exact setParamsGo_frame _ _ _ _ _ _ hgo k hk
  · intro i stim gsi mask ist hstim hgsi hmask hist
    have hilt : i < e.stim_list.length := (List.getElem?_eq_some_iff.mp hstim).1
    obtain ⟨hlen, hget⟩ := mapExcept_ok_inv _ _ houts
    obtain ⟨y, hy, hfy⟩ := hget i i (List.getElem?_range hilt)
    have hsy : y = e.neuron.run_wrt_target_spike_train e1.neuron.attrs
        e.init_voltage e.init_threshold e.init_AScurrents stim gsi mask ist := by
      rw [he1] at hfy ⊢
      simp only [GLIFExperiment.runSweep, hstim, hgsi, hmask, hist] at hfy
      exact (Except.ok.inj hfy).symm
    show (outs.map SimTargetOut.voltage)[i]? = _
    rw [List.getElem?_map, hy, hsy]
    rfl
  · intro e2 r2 h2
    obtain ⟨hset2, outs2, houts2, rfl⟩ := run_base_model_ok_inv e pg e2 r2 h2
    have he2 : e2 = e1 := Except.ok.inj (hset2.symm.trans hset)
    subst he2
    refine ⟨rfl, ?_⟩
    intro i stim hstim
    have hilt : i < e.stim_list.length := (List.getElem?_eq_some_iff.mp hstim).1
    obtain ⟨hlen2, hget2⟩ := mapExcept_ok_inv _ _ houts2
    obtain ⟨y, hy, hfy⟩ := hget2 i i (List.getElem?_range hilt)
    have hsy : y = e.neuron.run e2.neuron.attrs
        e.init_voltage e.init_threshold e.init_AScurrents stim := by
      rw [he1] at hfy ⊢
      simp only [GLIFExperiment.runSweepBase, hstim] at hfy
      exact (Except.ok.inj hfy).symm
    show (outs2.map SimFreeOut.voltage)[i]? = _
    rw [List.getElem?_map, hy, hsy, he1]
    rfl

/-- The target-driven result bundle of `sampleExp` after mapping
`[9, 8, 7, 6]`. -/
def c8SampleRun : RunResult :=
  { voltage_list := [18, 28], threshold_list := [-50, -50], AScurrentMatrix_list := [6, 6],
    gridTime_list := [100, 101], interpolatedTime_list := [300, 301],
    gridISIFromLastTargSpike_list := [1, 1],
    interpolatedISIFromLastTargSpike_list := [-70, -70],
    voltageOfModelAtGridBioSpike_list := [21, 21],
    theshOfModelAtGridBioSpike_list := [22, 22],
    voltageOfModelAtInterpolatedBioSpike_list := [23, 23],
    thresholdOfModelAtInterpolatedBioSpike_list := [24, 24] }

/-- Witness for C8 at the concrete sample experiment. -/
theorem c8_witness :
    sampleExp1 = { sampleExp with
        neuron := { sampleExp.neuron with attrs := sampleExp1.neuron.attrs } } ∧
      (∀ k, k ∉ sampleExp.fit_names_list →
        getattrOpt sampleExp1.neuron.attrs k = getattrOpt sampleExp.neuron.attrs k) ∧
      (∀ (i : Nat) (stim gsi mask ist : Int),
        sampleExp.stim_list[i]? = some stim →
        sampleExp.grid_spike_index_target_list[i]? = some gsi →
        sampleExp.target_spike_mask[i]? = some mask →
        sampleExp.interpolated_spike_time_target_list[i]? = some ist →
        c8SampleRun.voltage_list[i]? =
          some ((sampleExp.neuron.run_wrt_target_spike_train sampleExp1.neuron.attrs
            sampleExp.init_voltage sampleExp.init_threshold sampleExp.init_AScurrents
            stim gsi mask ist).voltage)) ∧
      (∀ e2 r2, sampleExp.run_base_model [9, 8, 7, 6] = .ok (e2, r2) → e2 = sampleExp1 ∧
        ∀ (i : Nat) (stim : Int), sampleExp.stim_list[i]? = some stim →
          r2.voltage_list[i]? = some ((sampleExp.neuron.run sampleExp1.neuron.attrs
            sampleExp.init_voltage sampleExp.init_threshold
            sampleExp.init_AScurrents stim).voltage)) :=
  c8_frame sampleExp [9, 8, 7, 6] sampleExp1 c8SampleRun (by rfl)

/-! ## C10 — empty sweep dataset -/

/-- Replace the two simulator entry points of the experiment's model,
keeping everything else. -/
def withSims (e : GLIFExperiment)
    (f : AttrMap → Int → Int → Int → Int → Int → Int → Int → SimTargetOut)
    (g : AttrMap → Int → Int → Int → Int → SimFreeOut) : GLIFExperiment :=
  { e with neuron := { e.neuron with run_wrt_target_spike_train := f, run := g } }

/-- Swapping the simulators commutes with the mapping step, which
never consults them. -/
theorem set_neuron_parameters_withSims (e : GLIFExperiment) (pg : List Int)
    (e1 : GLIFExperiment) (hset : e.set_neuron_parameters pg = .ok e1)
    (f : AttrMap → Int → Int → Int → Int → Int → Int → Int → SimTargetOut)
    (g : AttrMap → Int → Int → Int → Int → SimFreeOut) :
    (withSims e f g).set_neuron_parameters pg = .ok (withSims e1 f g) := by
  obtain ⟨attrs2, idx2, hgo, he1⟩ := set_neuron_parameters_ok_inv e pg e1 hset
  subst he1
  have hcond : ¬ ((withSims e f g).fit_names_list.any
      (fun param => decide (param ∉ FIT_PARAMETERS)) = true) := by
    rw [GLIFExperiment.set_neuron_parameters] at hset
    split at hset
    · cases hset
    · rename_i hcond0
      simpa [withSims] using hcond0
  have hgo' : setParamsGo (withSims e f g).neuron.attrs (withSims e f g).fit_names_list 0 pg =
      .ok (attrs2, idx2) := hgo
  rw [GLIFExperiment.set_neuron_parameters, if_neg hcond]
  simp only [hgo']
  rfl

/-- C10: on an empty sweep dataset the parameter mapping is still
performed (the returned experiment is the mapped one), both run modes
return all-empty output lists, and the simulators are never invoked —
replacing both simulator entry points by arbitrary functions yields
the very same outcome. -/
theorem c10_empty_dataset (e : GLIFExperiment) (pg : List Int) (e1 : GLIFExperiment)
    (hstim : e.stim_list = []) (hset : e.set_neuron_parameters pg = .ok e1) :
    e.run pg = .ok (e1, mkRunResult []) ∧
      e.run_base_model pg = .ok (e1, mkBaseRunResult []) ∧
      (∀ f g, (withSims e f g).run pg = .ok (withSims e1 f g, mkRunResult []) ∧
        (withSims e f g).run_base_model pg = .ok (withSims e1 f g, mkBaseRunResult [])) := by
  refine ⟨?_, ?_, ?_⟩
  · simp only [GLIFExperiment.run, hset, hstim, List.length_nil, List.range_zero, mapExcept]
  · simp only [GLIFExperiment.run_base_model, hset, hstim, List.length_nil, List.range_zero,
      mapExcept]
  · intro f g
    have hset2 := set_neuron_parameters_withSims e pg e1 hset f g
    have hstim2 : (withSims e f g).stim_list = [] := hstim
    constructor
    · simp only [GLIFExperiment.run, hset2, hstim2, List.length_nil, List.range_zero, mapExcept]
    · simp only [GLIFExperiment.run_base_model, hset2, hstim2, List.length_nil,
        List.range_zero, mapExcept]

/-- The sample experiment with its sweep dataset emptied. -/
def c10Exp : GLIFExperiment := { sampleExp with stim_list := [] }

/-- `c10Exp` after the mapping step. -/
def c10Exp1 : GLIFExperiment := { sampleExp1 with stim_list := [] }

/-- Witness for C10 at the concrete empty-dataset experiment. -/
theorem c10_witness :
    c10Exp.run [9, 8, 7, 6] = .ok (c10Exp1, mkRunResult []) ∧
      c10Exp.run_base_model [9, 8, 7, 6] = .ok (c10Exp1, mkBaseRunResult []) ∧
      (∀ f g, (withSims c10Exp f g).run [9, 8, 7, 6] =
          .ok (withSims c10Exp1 f g, mkRunResult []) ∧
        (withSims c10Exp f g).run_base_model [9, 8, 7, 6] =
          .ok (withSims c10Exp1 f g, mkBaseRunResult [])) :=
  c10_empty_dataset c10Exp [9, 8, 7, 6] c10Exp1 rfl (by rfl)

/-! ## C7 — repeated runs with the same parameter vector -/

/-- Run `run` twice in succession with the same parameter vector,
collecting both result bundles (the second call starting from the
model state the first call left behind). -/
def runTwice (e : GLIFExperiment) (pg : List Int) : Except PyErr (RunResult × RunResult) :=
  match e.run pg with
  | .error err => .error err
  | .ok (e1, r1) =>
    match e1.run pg with
    | .error err => .error err
    | .ok (_, r2) => .ok (r1, r2)

/-- Counterexample to C7 as stated: with the duplicate fit
specification `["coeff_a_vector", "coeff_a_vector"]` (length-3 vector
attribute) and the four-value vector `[1, 2, 3, 4]`, the first call
truncates the attribute to the one-element `[4]`; the second call then
reads length 1, consumes different slots, and ends with `[2]` — the
two result bundles differ (voltage channels `[14, 24]` vs
`[12, 22]`). -/
theorem c7_counterexample :
    (runTwice { sampleExp with fit_names_list := ["coeff_a_vector", "coeff_a_vector"] }
        [1, 2, 3, 4]).map (fun p => (p.1.voltage_list, p.2.voltage_list)) =
      .ok ([14, 24], [12, 22]) ∧ ([14, 24] : List Int) ≠ [12, 22] :=
  ⟨rfl, by decide⟩

/-- Taking as many elements as a previous take took is the same
take. -/
theorem take_length_take {α : Type} (l : List α) (n : Nat) :
    l.take (l.take n).length = l.take n := by
  rw [List.length_take, List.take_eq_take]
  omega

/-- Once the cursor is at or past the end of the parameter vector, a
successful first pass wrote `[]` into every remaining (vector)
attribute, so a second pass from any out-of-range cursor rewrites the
same values and leaves the store fixed. -/
theorem setParamsGo_oob (names : List String) :
    ∀ (attrs : AttrMap) (c1 : Nat) (pg : List Int) (attrs2 : AttrMap) (c2 : Nat),
      names.Nodup → pg.length ≤ c1 →
      setParamsGo attrs names c1 pg = .ok (attrs2, c2) →
      ∀ c1', pg.length ≤ c1' →
        ∃ c2', setParamsGo attrs2 names c1' pg = .ok (attrs2, c2') := by
  induction names with
  | nil =>
    intro attrs c1 pg attrs2 c2 _ _ h c1' _
    rw [setParamsGo] at h
    injection h with h1
    obtain ⟨rfl, rfl⟩ : attrs = attrs2 ∧ c1 = c2 := by
      simpa [Prod.ext_iff] using h1
    exact ⟨c1', rfl⟩
  | cons n rest ih =>
    intro attrs c1 pg attrs2 c2 hnodup hc1 h c1' hc1'
    obtain ⟨hn, hnd⟩ := List.nodup_cons.mp hnodup
    rw [setParamsGo] at h
    cases hg : getattrOpt attrs n with
    | none => rw [hg] at h; cases h
    | some v =>
      cases v with
      | scalar y =>
        simp only [hg, List.getElem?_eq_none hc1] at h
        exact Except.noConfusion h
      | vector w =>
        have h2 : setParamsGo (setattr attrs n
            (AttrValue.vector (pySlice pg c1 (c1 + w.length)))) rest (c1 + w.length) pg =
            .ok (attrs2, c2) := by
          simp only [hg] at h
          exact h
        have hsl : pySlice pg c1 (c1 + w.length) = [] := by
          rw [pySlice, List.drop_eq_nil_of_le hc1]
          simp
        rw [hsl] at h2
        have hframe := setParamsGo_frame rest _ _ _ _ _ h2 n hn
        have hat2 : getattrOpt attrs2 n = some (.vector []) := by
          rw [hframe, getattrOpt_setattr_self]
        have hset2 : setattr attrs2 n (.vector ([] : List Int)) = attrs2 :=
          setattr_eq_self _ _ _ hat2
        obtain ⟨c2', hrec⟩ :=
          ih _ _ pg _ _ hnd (Nat.le_trans hc1 (Nat.le_add_right c1 w.length)) h2 c1' hc1'
        refine ⟨c2', ?_⟩
        have hsl' : pySlice pg c1' c1' = [] := by
          simp [pySlice]
        simp only [setParamsGo, hat2, List.length_nil, Nat.add_zero, hsl', hset2]
        exact hrec

/-- Idempotence of the cursor loop on a duplicate-free name list: a
second pass over the store the first pass produced rewrites every
attribute with the value it already holds. -/
theorem setParamsGo_idem (names : List String) :
    ∀ (attrs : AttrMap) (c : Nat) (pg : List Int) (attrs2 : AttrMap) (c2 : Nat),
      names.Nodup →
      setParamsGo attrs names c pg = .ok (attrs2, c2) →
      ∃ c3, setParamsGo attrs2 names c pg = .ok (attrs2, c3) := by
  induction names with
  | nil =>
    intro attrs c pg attrs2 c2 _ h
    rw [setParamsGo] at h
    injection h with h1
    obtain ⟨rfl, rfl⟩ : attrs = attrs2 ∧ c = c2 := by
      simpa [Prod.ext_iff] using h1
    exact ⟨c, rfl⟩
  | cons n rest ih =>
    intro attrs c pg attrs2 c2 hnodup h
    obtain ⟨hn, hnd⟩ := List.nodup_cons.mp hnodup
    rw [setParamsGo] at h
    cases hg : getattrOpt attrs n with
    | none => rw [hg] at h; cases h
    | some v =>
      cases v with
      | scalar y =>
        cases hp : pg[c]? with
        | none =>
          simp only [hg, hp] at h
          exact Except.noConfusion h
        | some x =>
          have h2 : setParamsGo (setattr attrs n (AttrValue.scalar x)) rest (c + 1) pg =
              .ok (attrs2, c2) := by
            simp only [hg, hp] at h
            exact h
          have hframe := setParamsGo_frame rest _ _ _ _ _ h2 n hn
          have hat2 : getattrOpt attrs2 n = some (.scalar x) := by
            rw [hframe, getattrOpt_setattr_self]
          have hset2 : setattr attrs2 n (.scalar x) = attrs2 := setattr_eq_self _ _ _ hat2
          obtain ⟨c3, hrec⟩ := ih _ _ pg _ _ hnd h2
          refine ⟨c3, ?_⟩
          simp only [setParamsGo, hat2, hp, hset2]
          exact hrec
      | vector w =>
        have h2 : setParamsGo (setattr attrs n
            (AttrValue.vector (pySlice pg c (c + w.length)))) rest (c + w.length) pg =
            .ok (attrs2, c2) := by
          simp only [hg] at h
          exact h
        have hframe := setParamsGo_frame rest _ _ _ _ _ h2 n hn
        have hat2 : getattrOpt attrs2 n = some (.vector (pySlice pg c (c + w.length))) := by
          rw [hframe, getattrOpt_setattr_self]
        have hslice2 : pySlice pg c (c + (pySlice pg c (c + w.length)).length) =
            pySlice pg c (c + w.length) := by
          simp only [pySlice, Nat.add_sub_cancel_left]
          exact take_length_take _ _
        have hset2 : setattr attrs2 n (.vector (pySlice pg c (c + w.length))) = attrs2 :=
          setattr_eq_self _ _ _ hat2
        by_cases hin : c + w.length ≤ pg.length
        · have hlenv : (pySlice pg c (c + w.length)).length = w.length := by
            rw [pySlice, Nat.add_sub_cancel_left, List.length_take, List.length_drop]
            omega
          obtain ⟨c3, hrec⟩ := ih _ _ pg _ _ hnd h2
          refine ⟨c3, ?_⟩
          simp only [setParamsGo, hat2, hslice2, hset2, hlenv]
          exact hrec
        · have hoob1 : pg.length ≤ c + w.length := Nat.le_of_lt (Nat.lt_of_not_le hin)
          have hc2' : pg.length ≤ c + (pySlice pg c (c + w.length)).length := by
            rw [pySlice, Nat.add_sub_cancel_left, List.length_take, List.length_drop]
            omega
          obtain ⟨c2', hrec⟩ := setParamsGo_oob rest _ _ pg _ _ hnd hoob1 h2 _ hc2'
          refine ⟨c2', ?_⟩
          simp only [setParamsGo, hat2, hslice2, hset2]
          exact hrec

/-- A successful mapping step implies the allow-list check passed. -/
theorem set_neuron_parameters_any_false (e : GLIFExperiment) (pg : List Int)
    (e1 : GLIFExperiment) (hset : e.set_neuron_parameters pg = .ok e1) :
    e.fit_names_list.any (fun param => decide (param ∉ FIT_PARAMETERS)) = false := by
  rw [GLIFExperiment.set_neuron_parameters] at hset
  split at hset
  · cases hset
  · rename_i hcond
    simpa using hcond

/-- Mapping the same parameter vector a second time, onto the store the
first mapping produced, is the identity (duplicate-free fit list). -/
theorem set_neuron_parameters_idem (e : GLIFExperiment) (pg : List Int)
    (e1 : GLIFExperiment) (hnodup : e.fit_names_list.Nodup)
    (hset : e.set_neuron_parameters pg = .ok e1) :
    e1.set_neuron_parameters pg = .ok e1 := by
  have hany := set_neuron_parameters_any_false e pg e1 hset
  obtain ⟨attrs2, idx2, hgo, he1⟩ := set_neuron_parameters_ok_inv e pg e1 hset
  subst he1
  obtain ⟨c3, hrec⟩ := setParamsGo_idem e.fit_names_list e.neuron.attrs 0 pg attrs2 idx2
    hnodup hgo
  have hany' : (({ e with neuron := { e.neuron with attrs := attrs2 } } :
      GLIFExperiment).fit_names_list.any
      (fun param => decide (param ∉ FIT_PARAMETERS))) = false := hany
  have hrec' : setParamsGo
      ({ e with neuron := { e.neuron with attrs := attrs2 } } : GLIFExperiment).neuron.attrs
      ({ e with neuron := { e.neuron with attrs := attrs2 } } :
        GLIFExperiment).fit_names_list 0 pg = .ok (attrs2, c3) := hrec
  rw [GLIFExperiment.set_neuron_parameters]
  rw [hany']
  simp only [Bool.false_eq_true, if_false, hrec']

/-- C7 (amended): with a duplicate-free fit specification, running
twice in succession with the same parameter vector is idempotent —
the second `run` returns the very same mapped experiment and the very
same result bundle as the first (the first call's attribute mutation
is a fixed point of the second call's mapping, and the simulators are
deterministic pure functions).  Without the duplicate-free
restriction this fails, per the counterexample. -/
theorem c7_idempotent_run (e : GLIFExperiment) (pg : List Int) (e1 : GLIFExperiment)
    (r1 : RunResult) (hnodup : e.fit_names_list.Nodup)
    (h : e.run pg = .ok (e1, r1)) :
    e1.run pg = .ok (e1, r1) := by
  obtain ⟨hset, outs, houts, rfl⟩ := run_ok_inv e pg e1 r1 h
  have hset1 := set_neuron_parameters_idem e pg e1 hnodup hset
  have hstim : e1.stim_list = e.stim_list := by
    obtain ⟨a2, i2, hgo, he1⟩ := set_neuron_parameters_ok_inv e pg e1 hset
    rw [he1]
  simp only [GLIFExperiment.run, hset1, hstim, houts]

/-- Witness for the amended C7: a second `run` of the sample
experiment (distinct fit names) reproduces the first bundle. -/
theorem c7_witness :
    GLIFExperiment.run sampleExp1 [9, 8, 7, 6] = .ok (sampleExp1, c8SampleRun) :=
  c7_idempotent_run sampleExp [9, 8, 7, 6] sampleExp1 c8SampleRun (by decide) (by rfl)
